import Mathlib

/-!
Shallow embedding of the self-healing monitor of
`src/utils/self-healing.js` (class `SelfHealingSystem`), together with
theorems settling the specification claims about it.

Conventions of the embedding:
* JS `Map` objects (healthChecks, autoRepairs, errorPatterns,
  healingAttempts) are modelled as association lists in insertion order;
  `mapSet` replaces the value in place when the key is present and appends
  otherwise, and `mapGet` returns the first (unique) binding — exactly the
  observable behaviour of `Map.set` / `Map.get`.
* Timestamps (`Date.now()`, cooldowns, intervals) are integers
  (milliseconds).  A single `triggerHealing` pass reads the clock once.
* A repair action is modelled as a function from the shared
  performance-metric sequence to the new sequence together with a flag
  saying whether the action body threw; mutations made before a throw
  persist, as in JS.
* The state carries a ghost `executions` log recording every invocation of
  a repair action, used only to state "the action executed n times".
-/

namespace SelfHealing

/-- JS `Map.get`: first binding for the key, `none` when absent. -/
def mapGet {β : Type} : List (String × β) → String → Option β
  | [], _ => none
  | p :: rest, k => if p.1 = k then some p.2 else mapGet rest k

/-- JS `Map.set`: replace the binding in place when the key is present
(keys are unique in maps built from `[]` by `mapSet`), append otherwise. -/
def mapSet {β : Type} : List (String × β) → String → β → List (String × β)
  | [], k, v => [(k, v)]
  | p :: rest, k, v => if p.1 = k then (k, v) :: rest else p :: mapSet rest k v

/-! ### Data model -/

/-- The part of a health reading that repair triggers inspect:
`healthy` plus the `component` tag the monitoring loop stamps on the
reading before handing it to `triggerHealing`. -/
structure HealthReading where
  healthy : Bool
  component : String
  deriving DecidableEq, Repr

/-- The snapshot handed to `triggerHealing`: check name → reading. -/
abbrev HealthSnapshot := List (String × HealthReading)

/-- One entry of `this.performanceMetrics`, pushed by `recordMetric`. -/
structure PerfSample where
  endpoint : String
  responseTime : Int
  statusCode : Int
  timestamp : Int
  deriving DecidableEq, Repr

/-- `recordMetric(endpoint, responseTime, statusCode)`: appends a sample. -/
def recordMetric (metrics : List PerfSample) (endpoint : String)
    (responseTime statusCode timestamp : Int) : List PerfSample :=
  metrics ++ [{ endpoint := endpoint, responseTime := responseTime,
                statusCode := statusCode, timestamp := timestamp }]

/-- The data of one `healthChecks` entry (human-readable `name`,
polling `interval` in ms, `critical` flag).  The check functions
themselves are modelled separately (`memoryCheck`, `getHealthStatus`). -/
structure CheckDef where
  name : String
  interval : Int
  critical : Bool
  deriving DecidableEq, Repr

/-- `setupHealthChecks()`: registers the four built-in checks with
`Map.set`, in source order. -/
def setupHealthChecks (m : List (String × CheckDef)) : List (String × CheckDef) :=
  mapSet (mapSet (mapSet (mapSet m
    "server" { name := "Server Health", interval := 30000, critical := true })
    "memory" { name := "Memory Usage", interval := 15000, critical := true })
    "response_time" { name := "Response Time", interval := 45000, critical := false })
    "error_rate" { name := "Error Rate", interval := 60000, critical := true }

/-- `setupV8Monitoring()`: registers the fifth built-in check. -/
def setupV8Monitoring (m : List (String × CheckDef)) : List (String × CheckDef) :=
  mapSet m "v8_performance" { name := "V8 Performance", interval := 30000, critical := true }

/-- The check registry after `initialize()` has run both setup steps. -/
def healthChecksFull : List (String × CheckDef) :=
  setupV8Monitoring (setupHealthChecks [])

/-- `this.healthChecks.get(name)?.critical` (an absent check — JS
`undefined?.critical` — is falsy). -/
def isCriticalCheck (n : String) : Bool :=
  match mapGet healthChecksFull n with
  | some c => c.critical
  | none => false

/-! ### The memory health check (claim C5)

`check()` of the `memory` entry: computes
`memoryUsagePercent = heapUsed / heapTotal * 100` and reports
`healthy: memoryUsagePercent < 85`.  Arithmetic is modelled exactly
over `ℚ`. -/

/-- The reading returned by the `memory` check. -/
structure MemReading where
  healthy : Bool
  usage_percent : ℚ
  heap_used : ℚ
  heap_total : ℚ
  deriving Repr

/-- The `memory` check body, as a function of the process heap numbers. -/
def memoryCheck (heapUsed heapTotal : ℚ) : MemReading :=
  let pct := heapUsed / heapTotal * 100
  { healthy := decide (pct < 85)
    usage_percent := pct
    heap_used := heapUsed
    heap_total := heapTotal }

/-! ### Repairs and `triggerHealing` -/

/-- One `autoRepairs` entry: human-readable `name`, the `trigger`
predicate over the snapshot, the repair `action` (new metric sequence
plus a flag saying whether the body threw), and the `cooldown` (ms). -/
structure RepairDef where
  name : String
  trigger : HealthSnapshot → Bool
  action : List PerfSample → List PerfSample × Bool
  cooldown : Int

/-- Mutable state touched by a `triggerHealing` pass, plus the ghost
`executions` log of repair-action invocations. -/
structure HealingState where
  performanceMetrics : List PerfSample
  healingAttempts : List (String × Int)
  executions : List String
  deriving Repr

/-- The cooldown gate of `triggerHealing`: the repair is skipped iff
`lastAttempt && Date.now() - lastAttempt < repair.cooldown` — note the JS
truthiness test, under which a recorded timestamp of `0` counts as
never-run. -/
def cooldownBlocks (attempts : List (String × Int)) (rname : String)
    (cooldown now : Int) : Bool :=
  match mapGet attempts rname with
  | some t => if t ≠ 0 ∧ now - t < cooldown then true else false
  | none => false

/-- `await repair.repair(); this.healingAttempts.set(repairName, Date.now())`:
the action runs (logged in `executions`), and the timestamp is recorded
only when the action did not throw — a throw jumps to the `catch` before
the `set` line. -/
def runRepairAction (now : Int) (st : HealingState) (rname : String)
    (repair : RepairDef) : HealingState :=
  let res := repair.action st.performanceMetrics
  let st1 := { st with performanceMetrics := res.1
                       executions := st.executions ++ [rname] }
  if res.2 then st1
  else { st1 with healingAttempts := mapSet st1.healingAttempts rname now }

/-- One iteration of the `for (const [repairName, repair] of this.autoRepairs)`
loop: skip when the trigger is false or the cooldown blocks, otherwise
run the action. -/
def triggerHealingStep (now : Int) (snapshot : HealthSnapshot)
    (st : HealingState) (pr : String × RepairDef) : HealingState :=
  if !(pr.2.trigger snapshot) then st
  else if cooldownBlocks st.healingAttempts pr.1 pr.2.cooldown now then st
  else runRepairAction now st pr.1 pr.2

/-- `triggerHealing(healthStatus)`: evaluates every registered repair in
registry order; exceptions from an action are caught inside the loop
body, so the fold always continues with the remaining repairs. -/
def triggerHealing (now : Int) (repairs : List (String × RepairDef))
    (snapshot : HealthSnapshot) (st : HealingState) : HealingState :=
  repairs.foldl (triggerHealingStep now snapshot) st

/-! ### The built-in repairs -/

/-- The metric-trimming part of the `memory_cleanup` action:
`if (length > 1000) metrics = metrics.slice(-500)`. -/
def memoryCleanupAction (metrics : List PerfSample) : List PerfSample :=
  if 1000 < metrics.length then metrics.drop (metrics.length - 500) else metrics

/-- `memory_cleanup`: triggers when the `memory` reading is present and
unhealthy; trims the metric history; 5-minute cooldown.  (The `global.gc()`
call is an external side effect with no state in the model.) -/
def memory_cleanup : RepairDef where
  name := "Memory Cleanup"
  trigger := fun s => match mapGet s "memory" with
    | some r => !r.healthy
    | none => false
  action := fun m => (memoryCleanupAction m, false)
  cooldown := 300000

/-- `response_optimization`: unconditionally trims the metric history to
the last 100 entries; 10-minute cooldown. -/
def response_optimization : RepairDef where
  name := "Response Time Optimization"
  trigger := fun s => match mapGet s "response_time" with
    | some r => !r.healthy
    | none => false
  action := fun m => (m.drop (m.length - 100), false)
  cooldown := 600000

/-- `recentErrors` of the `error_mitigation` action:
`performanceMetrics.filter(statusCode >= 400).slice(-20)`. -/
def recentErrors (metrics : List PerfSample) : List PerfSample :=
  let errs := metrics.filter (fun m => 400 ≤ m.statusCode)
  errs.drop (errs.length - 20)

/-- Occurrences of an endpoint among a list of samples (the value
`errorsByEndpoint[endpoint]` accumulates). -/
def countEndpoint (l : List PerfSample) (e : String) : Nat :=
  (l.filter (fun s => s.endpoint == e)).length

/-- First-occurrence deduplication, with an accumulator of keys already
seen: the key order of a JS object populated left to right. -/
def dedupFirstAux (seen : List String) : List String → List String
  | [] => []
  | x :: xs => if x ∈ seen then dedupFirstAux seen xs
               else x :: dedupFirstAux (x :: seen) xs

/-- Keys of `errorsByEndpoint` in insertion order. -/
def dedupFirst (l : List String) : List String := dedupFirstAux [] l

/-- The endpoints for which `error_mitigation` emits the
"High error rate detected" log entry: entries of `errorsByEndpoint`
whose count is `>= 3`. -/
def highErrorEndpoints (metrics : List PerfSample) : List String :=
  let recent := recentErrors metrics
  (dedupFirst (recent.map (·.endpoint))).filter
    (fun e => 3 ≤ countEndpoint recent e)

/-- `error_mitigation`: analysis and logging only — the metric sequence
is left unchanged; 15-minute cooldown. -/
def error_mitigation : RepairDef where
  name := "Error Pattern Mitigation"
  trigger := fun s => match mapGet s "error_rate" with
    | some r => !r.healthy
    | none => false
  action := fun m => (m, false)
  cooldown := 900000

/-- `stability_check`: triggers when at least two snapshot readings are
strictly `healthy === false` with a critical registered check named by
their `component`; the action only compiles a report; 30-minute cooldown. -/
def stability_check : RepairDef where
  name := "System Stability Check"
  trigger := fun s =>
    2 ≤ (s.filter (fun p => p.2.healthy == false && isCriticalCheck p.2.component)).length
  action := fun m => (m, false)
  cooldown := 1800000

/-- `setupAutoRepairs()`: the repair registry in source insertion order. -/
def autoRepairs : List (String × RepairDef) :=
  [("memory_cleanup", memory_cleanup),
   ("response_optimization", response_optimization),
   ("error_mitigation", error_mitigation),
   ("stability_check", stability_check)]

/-! ### `extractErrorPattern` (claim C6)

The four global regex replacements are compiled to left-to-right
character scanners.  Each scanner is a direct transcription of the
regex's leftmost/greedy matching discipline. -/

/-- Scanner for `.replace(/\d+/g, 'NUMBER')`.  The flag says whether the
previous character was part of a digit run already replaced. -/
def replaceNumbersGo : Bool → List Char → List Char
  | _, [] => []
  | inNum, c :: cs =>
    if c.isDigit then
      if inNum then replaceNumbersGo true cs
      else String.toList "NUMBER" ++ replaceNumbersGo true cs
    else c :: replaceNumbersGo false cs

/-- Scanner for `.replace(/\/[^\s]+/g, 'PATH')`: a `/` followed by at
least one non-whitespace character starts a match that greedily absorbs
the maximal non-whitespace run.  The flag says whether the scanner is
inside such a run. -/
def replacePathsGo : Bool → List Char → List Char
  | _, [] => []
  | inPath, c :: cs =>
    if inPath then
      if !c.isWhitespace then replacePathsGo true cs
      else c :: replacePathsGo false cs
    else
      if c == '/' && (match cs with | d :: _ => !d.isWhitespace | [] => false) then
        String.toList "PATH" ++ replacePathsGo true cs
      else c :: replacePathsGo false cs

/-- `[a-f0-9]` with the `i` flag. -/
def isHexChar (c : Char) : Bool :=
  c.isDigit || ('a' ≤ c && c ≤ 'f') || ('A' ≤ c && c ≤ 'F')

/-- Consume exactly `n` hex characters, returning the rest. -/
def takeHex : Nat → List Char → Option (List Char)
  | 0, l => some l
  | _ + 1, [] => none
  | n + 1, c :: cs => if isHexChar c then takeHex n cs else none

/-- Consume one `-`. -/
def takeDash : List Char → Option (List Char)
  | '-' :: cs => some cs
  | _ => none

/-- Does `/[a-f0-9]{8}-[a-f0-9]{4}-[a-f0-9]{4}-[a-f0-9]{4}-[a-f0-9]{12}/i`
match at the head of the list?  (The match always spans 36 characters.) -/
def uuidAt (l : List Char) : Bool :=
  ((takeHex 8 l).bind fun l => (takeDash l).bind fun l =>
   (takeHex 4 l).bind fun l => (takeDash l).bind fun l =>
   (takeHex 4 l).bind fun l => (takeDash l).bind fun l =>
   (takeHex 4 l).bind fun l => (takeDash l).bind fun l =>
   takeHex 12 l).isSome

/-- Scanner for the UUID replacement.  `skip` counts characters of an
already-replaced 36-character match still to be dropped. -/
def replaceUUIDsGo : Nat → List Char → List Char
  | _, [] => []
  | skip + 1, _ :: cs => replaceUUIDsGo skip cs
  | 0, c :: cs =>
    if uuidAt (c :: cs) then String.toList "UUID" ++ replaceUUIDsGo 35 cs
    else c :: replaceUUIDsGo 0 cs

/-- JS `\w`. -/
def isWordChar (c : Char) : Bool := c.isAlphanum || c = '_'

/-- JS `[\w.-]` (the domain part character class of the email regex). -/
def isDomainChar (c : Char) : Bool := isWordChar c || c = '.' || c = '-'

/-- Backtracking search for `[\w.-]+\.\w+\b` inside the maximal
`[\w.-]` run `R` after the `@`: the engine keeps the *last* index `i ≥ 1`
of a `.` in `R` that is followed by a word character; the match then
extends over the maximal word run after that dot (the trailing `\b` then
holds automatically).  Returns the number of characters of `R` consumed. -/
def findSplit : List Char → Nat → Option Nat → Option Nat
  | [], _, best => best
  | c :: rest, i, best =>
    if c = '.' ∧ 1 ≤ i ∧ 1 ≤ (rest.takeWhile isWordChar).length then
      findSplit rest (i + 1) (some (i + 1 + (rest.takeWhile isWordChar).length))
    else findSplit rest (i + 1) best

/-- Match `\w+@[\w.-]+\.\w+\b` at the head of the list (the caller has
already established the leading `\b`), returning the number of
characters consumed.  `\w+` must be the maximal word run and must be
followed directly by `@`. -/
def matchEmailLen (l : List Char) : Option Nat :=
  let w := l.takeWhile isWordChar
  if w.length = 0 then none
  else
    match l.dropWhile isWordChar with
    | '@' :: r2 =>
      (findSplit (r2.takeWhile isDomainChar) 0 none).map
        (fun consumed => w.length + 1 + consumed)
    | _ => none

/-- Scanner for the email replacement.  `skip` counts remaining
characters of a replaced match; `prevW` says whether the previous
character was a word character (for the leading `\b`). -/
def replaceEmailsGo : Nat → Bool → List Char → List Char
  | _, _, [] => []
  | skip + 1, pw, _ :: cs => replaceEmailsGo skip pw cs
  | 0, prevW, c :: cs =>
    if !prevW && isWordChar c then
      match matchEmailLen (c :: cs) with
      | some n => String.toList "EMAIL" ++ replaceEmailsGo (n - 1) true cs
      | none => c :: replaceEmailsGo 0 (isWordChar c) cs
    else c :: replaceEmailsGo 0 (isWordChar c) cs

/-- `extractErrorPattern(errorMessage)`: the four replacements in source
order, then `.substring(0, 200)`. -/
def extractErrorPattern (msg : String) : String :=
  String.mk ((replaceEmailsGo 0 false
    (replaceUUIDsGo 0
      (replacePathsGo false
        (replaceNumbersGo false msg.toList)))).take 200)

/-- One `errorPatterns` value. -/
structure ErrorPattern where
  count : Nat
  first_seen : Int
  last_seen : Int
  messages : List (String × Int)
  deriving DecidableEq, Repr

/-- `analyzeError(errorMessage)` at clock reading `now`: create the
pattern entry when absent, then increment its count, update `last_seen`,
append the raw message and keep only the last 10 messages. -/
def analyzeError (patterns : List (String × ErrorPattern)) (msg : String)
    (now : Int) : List (String × ErrorPattern) :=
  let key := extractErrorPattern msg
  let p1 :=
    if (mapGet patterns key).isSome then patterns
    else mapSet patterns key
      { count := 0, first_seen := now, last_seen := now, messages := [] }
  match mapGet p1 key with
  | some p =>
    let withMsg := { p with count := p.count + 1, last_seen := now,
                            messages := p.messages ++ [(msg, now)] }
    let trimmed :=
      if 10 < withMsg.messages.length then
        { withMsg with messages := withMsg.messages.drop (withMsg.messages.length - 10) }
      else withMsg
    mapSet p1 key trimmed
  | none => p1

/-! ### `getHealthStatus` (claim C10) -/

/-- One value of the mapping `getHealthStatus` returns: either the
reading the check produced, or the `{ healthy: false, error: message }`
record built in the `catch` branch. -/
inductive HealthEntry (α : Type) where
  | result (r : α)
  | failure (errMsg : String)
  deriving DecidableEq, Repr

/-- The healthy flag of an entry, given how to read it off a normal
check result: the `catch`-branch record always carries `healthy: false`. -/
def entryHealthy {α : Type} (healthyOf : α → Bool) : HealthEntry α → Bool
  | HealthEntry.result r => healthyOf r
  | HealthEntry.failure _ => false

/-- `getHealthStatus()`: runs every registered check in registry order;
a check invocation is modelled by its outcome (`Except.ok reading` for a
normal return, `Except.error message` for a throw), and the per-check
`try/catch` turns a throw into a `failure` entry instead of propagating. -/
def getHealthStatus {α : Type} (checks : List (String × Except String α)) :
    List (String × HealthEntry α) :=
  checks.map (fun p => (p.1,
    match p.2 with
    | Except.ok r => HealthEntry.result r
    | Except.error e => HealthEntry.failure e))

/-! ### `getHealingHistory` (claim C9) -/

/-- One entry of the list `getHealingHistory` returns.  `last_attempt`
is kept as the raw millisecond timestamp (the source renders it as an
ISO string, a strictly monotone encoding). -/
structure HistoryEntry where
  repair_name : String
  repair_description : String
  last_attempt : Int
  cooldown_remaining : Int
  deriving DecidableEq, Repr

/-- Insertion into a list sorted by descending `last_attempt`. -/
def insertByAttemptDesc (e : HistoryEntry) : List HistoryEntry → List HistoryEntry
  | [] => [e]
  | x :: xs => if x.last_attempt < e.last_attempt then e :: x :: xs
               else x :: insertByAttemptDesc e xs

/-- `history.sort((a, b) => b.last_attempt - a.last_attempt)`. -/
def sortByAttemptDesc (l : List HistoryEntry) : List HistoryEntry :=
  l.foldr insertByAttemptDesc []

/-- `getHealingHistory()`: one entry per recorded healing attempt, with
`cooldown_remaining = Math.max(0, timestamp + (repair?.cooldown || 0) - Date.now())`,
sorted most recent first.  (`repair?.cooldown || 0` equals the lookup
below: the registered cooldowns are positive, and a missing repair
contributes `0`.) -/
def getHealingHistory (repairs : List (String × RepairDef))
    (attempts : List (String × Int)) (now : Int) : List HistoryEntry :=
  sortByAttemptDesc (attempts.map (fun p =>
    { repair_name := p.1
      repair_description := match mapGet repairs p.1 with
        | some r => r.name
        | none => p.1
      last_attempt := p.2
      cooldown_remaining :=
        max 0 (p.2 + (match mapGet repairs p.1 with
          | some r => r.cooldown
          | none => 0) - now) }))

/-- Hypothetical registered repair whose action always throws; used to
exercise the failure path of `triggerHealing`, which the claims quantify
over ("if the repair action raises an exception ..."). -/
def throwingRepair : RepairDef where
  name := "Throwing Repair"
  trigger := fun _ => true
  action := fun m => (m, true)
  cooldown := 300000

/-- Hypothetical registered repair whose action completes normally. -/
def okRepair : RepairDef where
  name := "OK Repair"
  trigger := fun _ => true
  action := fun m => (m, false)
  cooldown := 300000

/-! ## Helper lemmas -/

theorem mapGet_mapSet_self {β : Type} (m : List (String × β)) (k : String) (v : β) :
    mapGet (mapSet m k v) k = some v := by
  induction m with
  | nil => simp [mapGet, mapSet]
  | cons p rest ih =>
    by_cases h : p.1 = k
    · simp [mapGet, mapSet, h]
    · simp [mapGet, mapSet, h, ih]

theorem length_mapSet_of_isSome {β : Type} (m : List (String × β)) (k : String) (v : β)
    (h : (mapGet m k).isSome) : (mapSet m k v).length = m.length := by
  induction m with
  | nil => simp [mapGet] at h
  | cons p rest ih =>
    by_cases hp : p.1 = k
    · simp [mapSet, hp]
    · simp only [mapGet, if_neg hp] at h
      simp [mapSet, hp, ih h]

/-- A repair-action invocation appends exactly the repair's key to the
ghost execution log, whether or not the action throws. -/
theorem executions_runRepairAction (now : Int) (st : HealingState) (n : String)
    (r : RepairDef) :
    (runRepairAction now st n r).executions = st.executions ++ [n] := by
  unfold runRepairAction
  by_cases h : (r.action st.performanceMetrics).2 <;> simp [h]

/-! ## Claim C5 -/

/-- C5: for every process memory snapshot, the `memory` health check's
`healthy` flag is `false` iff `heapUsed / heapTotal ≥ 0.85` at
evaluation time. -/
theorem c5_memory_threshold (heapUsed heapTotal : ℚ) :
    ((memoryCheck heapUsed heapTotal).healthy = false) ↔
      (85 / 100 : ℚ) ≤ heapUsed / heapTotal := by
  simp only [memoryCheck, decide_eq_false_iff_not, not_lt]
  constructor <;> intro h <;> linarith

/-! ## Claim C7 -/

/-- C7: for every performance-metric sequence longer than 1000 entries,
the `memory_cleanup` action leaves the sequence with length at most 500,
consisting of the most recent 500 entries. -/
theorem c7_memory_cleanup_trims (metrics : List PerfSample)
    (h : 1000 < metrics.length) :
    (memoryCleanupAction metrics).length ≤ 500 ∧
      memoryCleanupAction metrics = metrics.drop (metrics.length - 500) := by
  unfold memoryCleanupAction
  rw [if_pos h]
  refine ⟨?_, rfl⟩
  rw [List.length_drop]
  omega

/-- C7 witness: a sequence of length 1200 is trimmed to length at most 500. -/
theorem c7_memory_cleanup_trims_witness :
    (memoryCleanupAction (List.replicate 1200
      ({ endpoint := "/", responseTime := 1, statusCode := 200, timestamp := 0 } :
        PerfSample))).length ≤ 500 :=
  (c7_memory_cleanup_trims _ (by norm_num)).1

/-! ## Claim C2 -/

/-- C2 counterexample: registering a second check under the
already-registered name `memory` does not fail — `Map.set` succeeds and
the registry afterwards holds the second definition, which differs from
the original. -/
theorem c2_duplicate_check_counterexample :
    mapGet (mapSet (mapSet [] "memory"
        ({ name := "Memory Usage", interval := 15000, critical := true } : CheckDef))
        "memory" { name := "Memory Usage", interval := 20000, critical := true })
      "memory" =
      some { name := "Memory Usage", interval := 20000, critical := true } ∧
    ({ name := "Memory Usage", interval := 20000, critical := true } : CheckDef) ≠
      { name := "Memory Usage", interval := 15000, critical := true } :=
  ⟨rfl, by decide⟩

/-- C2 amended: registering a second health check under an
already-registered name raises no error — `Map.set` silently replaces
the original definition in place, leaving the registry size unchanged. -/
theorem c2_duplicate_check_amended (m : List (String × CheckDef)) (k : String)
    (d1 d2 : CheckDef) :
    mapGet (mapSet (mapSet m k d1) k d2) k = some d2 ∧
    (mapSet (mapSet m k d1) k d2).length = (mapSet m k d1).length := by
  refine ⟨mapGet_mapSet_self _ _ _, ?_⟩
  apply length_mapSet_of_isSome
  rw [mapGet_mapSet_self]
  rfl

/-! ## Claim C10 -/

/-- C10: `getHealthStatus` is total over the registered checks — exactly
one entry per registered check name, in registry order; a throwing check
contributes a `failure` entry (whose healthy flag is `false`) instead of
propagating, and a normally returning check contributes its reading. -/
theorem c10_health_status_total {α : Type} (checks : List (String × Except String α)) :
    (getHealthStatus checks).map Prod.fst = checks.map Prod.fst ∧
    (∀ n r, (n, Except.ok r) ∈ checks →
      (n, HealthEntry.result r) ∈ getHealthStatus checks) ∧
    (∀ n e, (n, Except.error e) ∈ checks →
      (n, HealthEntry.failure e) ∈ getHealthStatus checks) ∧
    (∀ (e : String) (healthyOf : α → Bool),
      entryHealthy healthyOf (HealthEntry.failure e) = false) := by
  refine ⟨?_, ?_, ?_, fun e hOf => rfl⟩
  · rw [getHealthStatus, List.map_map]
    rfl
  · intro n r h
    exact List.mem_map.mpr ⟨(n, Except.ok r), h, rfl⟩
  · intro n e h
    exact List.mem_map.mpr ⟨(n, Except.error e), h, rfl⟩

/-- C10 witness: on a registry where `server` returns normally and
`memory` throws `boom`, the result keeps both names and maps `memory`
to the caught-error entry. -/
theorem c10_health_status_total_witness :
    (getHealthStatus [("server", Except.ok true), ("memory", Except.error "boom")]).map
        Prod.fst = ["server", "memory"] ∧
    ("memory", HealthEntry.failure "boom") ∈
      getHealthStatus [("server", Except.ok true), ("memory", Except.error "boom")] := by
  have h := c10_health_status_total (α := Bool)
    [("server", Except.ok true), ("memory", Except.error "boom")]
  exact ⟨h.1, h.2.2.1 "memory" "boom" (by simp)⟩

/-! ## Claim C1 -/

/-- C1 counterexample: with a triggering, never-run repair `r1` whose
action throws, followed by a normal repair `r2`, the pass catches the
exception and still evaluates `r2` (both invocations appear in the
execution log, and `r2`'s timestamp is recorded) — but, contrary to the
claim, `r1`'s last-invocation timestamp is NOT recorded in
`healingAttempts`: the `healingAttempts.set` line sits after the `await`
inside the `try`, so the throw skips it. -/
theorem c1_repair_exception_counterexample :
    (triggerHealing 1000 [("r1", throwingRepair), ("r2", okRepair)] []
      ⟨[], [], []⟩).executions = ["r1", "r2"] ∧
    mapGet (triggerHealing 1000 [("r1", throwingRepair), ("r2", okRepair)] []
      ⟨[], [], []⟩).healingAttempts "r2" = some 1000 ∧
    mapGet (triggerHealing 1000 [("r1", throwingRepair), ("r2", okRepair)] []
      ⟨[], [], []⟩).healingAttempts "r1" = none :=
  ⟨rfl, rfl, rfl⟩

/-- C1 amended: for a registered repair whose trigger accepts the
snapshot and whose cooldown gate is open, if the action throws then the
exception is caught and the pass continues with the remaining repairs
exactly as a fresh pass from the post-throw state — the action's metric
mutations and its ghost execution record persist, but `healingAttempts`
is left untouched (no last-invocation timestamp is recorded for the
failed repair). -/
theorem c1_repair_exception_amended (now : Int) (snap : HealthSnapshot)
    (st : HealingState) (n : String) (r : RepairDef)
    (rest : List (String × RepairDef))
    (htrig : r.trigger snap = true)
    (hopen : cooldownBlocks st.healingAttempts n r.cooldown now = false)
    (hthrew : (r.action st.performanceMetrics).2 = true) :
    triggerHealing now ((n, r) :: rest) snap st =
      triggerHealing now rest snap
        { performanceMetrics := (r.action st.performanceMetrics).1
          healingAttempts := st.healingAttempts
          executions := st.executions ++ [n] } := by
  show List.foldl _ (triggerHealingStep now snap st (n, r)) rest = _
  congr 1
  unfold triggerHealingStep
  simp only [htrig, hopen, Bool.not_true, Bool.false_eq_true, if_false]
  unfold runRepairAction
  simp [hthrew]

/-- C1 amended, witness: the amended equation at the concrete throwing
pass of the counterexample. -/
theorem c1_repair_exception_amended_witness :
    triggerHealing 1000 [("r1", throwingRepair), ("r2", okRepair)] []
      ⟨[], [], []⟩ =
    triggerHealing 1000 [("r2", okRepair)] []
      { performanceMetrics := (throwingRepair.action []).1
        healingAttempts := []
        executions := [] ++ ["r1"] } :=
  c1_repair_exception_amended 1000 [] ⟨[], [], []⟩ "r1" throwingRepair
    [("r2", okRepair)] rfl rfl rfl

/-! ## Claim C3 -/

/-- C3 counterexample: a registered repair with positive cooldown whose
action throws is executed on BOTH of two triggering passes that lie
within one cooldown window — because the throw prevents the timestamp
from being recorded, the claim's "exactly once" fails as stated for
this repair definition. -/
theorem c3_cooldown_counterexample :
    0 < throwingRepair.cooldown ∧
    (1500 : Int) - 1000 < throwingRepair.cooldown ∧
    (triggerHealing 1500 [("flaky", throwingRepair)] []
      (triggerHealing 1000 [("flaky", throwingRepair)] []
        ⟨[], [], []⟩)).executions = ["flaky", "flaky"] :=
  ⟨by decide, by decide, rfl⟩

/-- C3 amended: for every registered repair with positive cooldown whose
action completes without throwing, starting never-run and with the first
pass at a positive clock reading: a second triggering pass strictly less
than the cooldown after the first leaves the action executed exactly
once, and a third pass at or after cooldown expiry executes it again. -/
theorem c3_cooldown_amended (n : String) (r : RepairDef) (snap : HealthSnapshot)
    (st0 : HealingState) (t1 t2 t3 : Int)
    (hcool : 0 < r.cooldown) (ht1 : 0 < t1)
    (h12 : t2 - t1 < r.cooldown) (h13 : r.cooldown ≤ t3 - t1)
    (htrig : r.trigger snap = true)
    (hnever : mapGet st0.healingAttempts n = none)
    (hnothrow : (r.action st0.performanceMetrics).2 = false) :
    (triggerHealing t2 [(n, r)] snap
        (triggerHealing t1 [(n, r)] snap st0)).executions =
      st0.executions ++ [n] ∧
    (triggerHealing t3 [(n, r)] snap
        (triggerHealing t2 [(n, r)] snap
          (triggerHealing t1 [(n, r)] snap st0))).executions =
      st0.executions ++ [n] ++ [n] := by
  have hcb1 : cooldownBlocks st0.healingAttempts n r.cooldown t1 = false := by
    simp [cooldownBlocks, hnever]
  have hst1 : triggerHealing t1 [(n, r)] snap st0 =
      { performanceMetrics := (r.action st0.performanceMetrics).1
        healingAttempts := mapSet st0.healingAttempts n t1
        executions := st0.executions ++ [n] } := by
    show triggerHealingStep t1 snap st0 (n, r) = _
    unfold triggerHealingStep
    simp only [htrig, hcb1, Bool.not_true, Bool.false_eq_true, if_false]
    unfold runRepairAction
    simp [hnothrow]
  have hget1 : mapGet (mapSet st0.healingAttempts n t1) n = some t1 :=
    mapGet_mapSet_self _ _ _
  have hcb2 : cooldownBlocks (mapSet st0.healingAttempts n t1) n r.cooldown t2 = true := by
    unfold cooldownBlocks
    rw [hget1]
    exact if_pos ⟨by omega, h12⟩
  have hst2 : triggerHealing t2 [(n, r)] snap
      (triggerHealing t1 [(n, r)] snap st0) = triggerHealing t1 [(n, r)] snap st0 := by
    rw [hst1]
    show triggerHealingStep t2 snap _ (n, r) = _
    unfold triggerHealingStep
    simp [htrig, hcb2]
  have hcb3 : cooldownBlocks (mapSet st0.healingAttempts n t1) n r.cooldown t3 = false := by
    unfold cooldownBlocks
    rw [hget1]
    apply if_neg
    rintro ⟨-, hlt⟩
    omega
  refine ⟨by rw [hst2, hst1], ?_⟩
  rw [hst2, hst1]
  show (triggerHealingStep t3 snap _ (n, r)).executions = _
  unfold triggerHealingStep
  simp only [htrig, hcb3, Bool.not_true, Bool.false_eq_true, if_false]
  rw [executions_runRepairAction]

/-- C3 amended, witness: the built-in `memory_cleanup` repair, triggered
by an unhealthy `memory` reading at times 1000 and 2000 (inside the
5-minute cooldown) and again at 400000 (after expiry), runs once and
then once more. -/
theorem c3_cooldown_amended_witness :
    (triggerHealing 2000 [("memory_cleanup", memory_cleanup)]
        [("memory", ⟨false, "memory"⟩)]
        (triggerHealing 1000 [("memory_cleanup", memory_cleanup)]
          [("memory", ⟨false, "memory"⟩)] ⟨[], [], []⟩)).executions =
      [] ++ ["memory_cleanup"] ∧
    (triggerHealing 400000 [("memory_cleanup", memory_cleanup)]
        [("memory", ⟨false, "memory"⟩)]
        (triggerHealing 2000 [("memory_cleanup", memory_cleanup)]
          [("memory", ⟨false, "memory"⟩)]
          (triggerHealing 1000 [("memory_cleanup", memory_cleanup)]
            [("memory", ⟨false, "memory"⟩)] ⟨[], [], []⟩))).executions =
      [] ++ ["memory_cleanup"] ++ ["memory_cleanup"] :=
  c3_cooldown_amended "memory_cleanup" memory_cleanup
    [("memory", ⟨false, "memory"⟩)] ⟨[], [], []⟩ 1000 2000 400000
    (by decide) (by decide) (by decide) (by decide) rfl rfl rfl

/-! ## Claim C4 -/

/-- A `triggerHealing` pass never logs an execution under a key whose
every registered repair has a false trigger on the snapshot. -/
theorem count_executions_triggerHealing (now : Int)
    (L : List (String × RepairDef)) (snap : HealthSnapshot) (st : HealingState)
    (n : String) (h : ∀ r, (n, r) ∈ L → r.trigger snap = false) :
    (triggerHealing now L snap st).executions.count n =
      st.executions.count n := by
  induction L generalizing st with
  | nil => rfl
  | cons pr rest ih =>
    have hrest : ∀ r, (n, r) ∈ rest → r.trigger snap = false :=
      fun r hr => h r (List.mem_cons_of_mem _ hr)
    have hstep : (triggerHealingStep now snap st pr).executions.count n =
        st.executions.count n := by
      unfold triggerHealingStep
      by_cases htrig : pr.2.trigger snap = true
      · have hne : pr.1 ≠ n := by
          intro he
          have hmem : (n, pr.2) ∈ pr :: rest := by
            rw [← he]
            exact List.mem_cons_self _ _
          rw [h pr.2 hmem] at htrig
          exact Bool.false_ne_true htrig
        rw [htrig]
        by_cases hcb : cooldownBlocks st.healingAttempts pr.1 pr.2.cooldown now
        · simp [hcb]
        · simp only [hcb, Bool.not_true, Bool.false_eq_true, if_false]
          rw [executions_runRepairAction, List.count_append]
          have hcnt : List.count n [pr.1] = 0 :=
            List.count_eq_zero.mpr
              (fun hmem => hne (List.mem_singleton.mp hmem).symm)
          omega
      · rw [Bool.not_eq_true] at htrig
        simp [htrig]
    have hcons : triggerHealing now (pr :: rest) snap st =
        triggerHealing now rest snap (triggerHealingStep now snap st pr) := rfl
    rw [hcons, ih _ hrest]
    exact hstep

/-- C4: the monitoring loop hands `triggerHealing` a snapshot with
exactly one check's reading; on every such single-reading snapshot the
`stability_check` trigger predicate is false (it needs at least two
critical unhealthy readings), so a whole pass over the built-in repair
registry never executes the `stability_check` action. -/
theorem c4_stability_never_triggers (n : String) (r : HealthReading)
    (st : HealingState) (now : Int) :
    stability_check.trigger [(n, r)] = false ∧
    (triggerHealing now autoRepairs [(n, r)] st).executions.count "stability_check" =
      st.executions.count "stability_check" := by
  have htrig : ∀ (n' : String) (r' : HealthReading),
      stability_check.trigger [(n', r')] = false := by
    intro n' r'
    have hlen := List.length_filter_le
      (fun p : String × HealthReading =>
        p.2.healthy == false && isCriticalCheck p.2.component) [(n', r')]
    simp only [List.length_cons, List.length_nil] at hlen
    exact decide_eq_false (by omega)
  refine ⟨htrig n r, count_executions_triggerHealing now autoRepairs [(n, r)] st _ ?_⟩
  intro r' hr'
  simp only [autoRepairs, List.mem_cons, List.not_mem_nil, or_false] at hr'
  rcases hr' with h1 | h1 | h1 | h1
  · exact absurd (show ("stability_check" : String) = "memory_cleanup" from
      congrArg Prod.fst h1) (by decide)
  · exact absurd (show ("stability_check" : String) = "response_optimization" from
      congrArg Prod.fst h1) (by decide)
  · exact absurd (show ("stability_check" : String) = "error_mitigation" from
      congrArg Prod.fst h1) (by decide)
  · have h2 : r' = stability_check := congrArg Prod.snd h1
    rw [h2]
    exact htrig n r

/-! ## Claim C8 -/

theorem mem_dedupFirstAux (l seen : List String) (e : String) :
    e ∈ dedupFirstAux seen l ↔ e ∈ l ∧ e ∉ seen := by
  induction l generalizing seen with
  | nil => simp [dedupFirstAux]
  | cons x xs ih =>
    unfold dedupFirstAux
    by_cases hx : x ∈ seen
    · rw [if_pos hx, ih]
      constructor
      · exact fun ⟨h1, h2⟩ => ⟨List.mem_cons_of_mem _ h1, h2⟩
      · rintro ⟨h1, h2⟩
        rcases List.mem_cons.mp h1 with rfl | h1
        · exact absurd hx h2
        · exact ⟨h1, h2⟩
    · rw [if_neg hx]
      constructor
      · intro hmem
        rcases List.mem_cons.mp hmem with rfl | hmem
        · exact ⟨List.mem_cons_self _ _, hx⟩
        · obtain ⟨h1, h2⟩ := (ih (x :: seen)).mp hmem
          refine ⟨List.mem_cons_of_mem _ h1, fun hs => h2 (List.mem_cons_of_mem _ hs)⟩
      · rintro ⟨h1, h2⟩
        rcases List.mem_cons.mp h1 with rfl | h1
        · exact List.mem_cons_self _ _
        · by_cases hex : e = x
          · subst hex
            exact List.mem_cons_self _ _
          · refine List.mem_cons_of_mem _ ((ih (x :: seen)).mpr ⟨h1, ?_⟩)
            intro hs
            rcases List.mem_cons.mp hs with h | h
            · exact hex h
            · exact h2 h

theorem mem_dedupFirst (l : List String) (e : String) :
    e ∈ dedupFirst l ↔ e ∈ l := by
  rw [dedupFirst, mem_dedupFirstAux]
  simp

/-- An endpoint receives the `error_mitigation` high-error log entry iff
it occurs at least 3 times among the last 20 error samples. -/
theorem mem_highErrorEndpoints (metrics : List PerfSample) (e : String) :
    e ∈ highErrorEndpoints metrics ↔
      3 ≤ countEndpoint (recentErrors metrics) e := by
  unfold highErrorEndpoints
  rw [List.mem_filter, mem_dedupFirst]
  constructor
  · rintro ⟨-, h⟩
    exact of_decide_eq_true h
  · intro h
    refine ⟨?_, decide_eq_true h⟩
    have hpos : 0 < ((recentErrors metrics).filter
        (fun s => s.endpoint == e)).length := by
      unfold countEndpoint at h
      omega
    obtain ⟨s, hs⟩ := List.exists_mem_of_ne_nil _
      (List.length_pos.mp hpos)
    obtain ⟨hsm, hse⟩ := List.mem_filter.mp hs
    exact List.mem_map.mpr ⟨s, hsm, by simpa using hse⟩

/-- C8: when the last 20 error samples contain `/api/x` three times and
`/api/y` twice, the high-error log entry is emitted for `/api/x` and for
every endpoint with at least 3 occurrences among those samples, and for
no endpoint with fewer — in particular not for `/api/y`. -/
theorem c8_error_mitigation_logging (metrics : List PerfSample)
    (hx : countEndpoint (recentErrors metrics) "/api/x" = 3)
    (hy : countEndpoint (recentErrors metrics) "/api/y" = 2) :
    "/api/x" ∈ highErrorEndpoints metrics ∧
    (∀ e, 3 ≤ countEndpoint (recentErrors metrics) e →
      e ∈ highErrorEndpoints metrics) ∧
    "/api/y" ∉ highErrorEndpoints metrics ∧
    (∀ e, countEndpoint (recentErrors metrics) e < 3 →
      e ∉ highErrorEndpoints metrics) := by
  refine ⟨?_, ?_, ?_, ?_⟩
  · exact (mem_highErrorEndpoints _ _).mpr (by omega)
  · exact fun e he => (mem_highErrorEndpoints _ _).mpr he
  · intro hmem
    have := (mem_highErrorEndpoints _ _).mp hmem
    omega
  · intro e he hmem
    have := (mem_highErrorEndpoints _ _).mp hmem
    omega

/-- C8 witness: five error samples (three on `/api/x`, two on `/api/y`)
produce the log entry for `/api/x` only. -/
theorem c8_error_mitigation_logging_witness :
    "/api/x" ∈ highErrorEndpoints
      [⟨"/api/x", 5, 500, 1⟩, ⟨"/api/y", 5, 500, 2⟩, ⟨"/api/x", 5, 500, 3⟩,
       ⟨"/api/y", 5, 500, 4⟩, ⟨"/api/x", 5, 500, 5⟩] ∧
    "/api/y" ∉ highErrorEndpoints
      [⟨"/api/x", 5, 500, 1⟩, ⟨"/api/y", 5, 500, 2⟩, ⟨"/api/x", 5, 500, 3⟩,
       ⟨"/api/y", 5, 500, 4⟩, ⟨"/api/x", 5, 500, 5⟩] := by
  have h := c8_error_mitigation_logging
    [⟨"/api/x", 5, 500, 1⟩, ⟨"/api/y", 5, 500, 2⟩, ⟨"/api/x", 5, 500, 3⟩,
     ⟨"/api/y", 5, 500, 4⟩, ⟨"/api/x", 5, 500, 5⟩] (by decide) (by decide)
  exact ⟨h.1, h.2.2.1⟩

/-! ## Claim C9 -/

/-- C9: after exactly one triggered repair, `getHealingHistory` returns
a single entry whose `cooldown_remaining` is
`max 0 (timestamp + cooldown - now)`: strictly positive immediately
after execution, non-increasing in the current time, never negative, and
zero from cooldown expiry on. -/
theorem c9_healing_history_cooldown (repairs : List (String × RepairDef))
    (n : String) (r : RepairDef) (ts : Int)
    (hr : mapGet repairs n = some r) (hcool : 0 < r.cooldown) :
    (∀ now, getHealingHistory repairs [(n, ts)] now =
      [{ repair_name := n, repair_description := r.name, last_attempt := ts,
         cooldown_remaining := max 0 (ts + r.cooldown - now) }]) ∧
    0 < max 0 (ts + r.cooldown - ts) ∧
    (∀ a b : Int, a ≤ b →
      max 0 (ts + r.cooldown - b) ≤ max 0 (ts + r.cooldown - a)) ∧
    (∀ a : Int, 0 ≤ max 0 (ts + r.cooldown - a)) ∧
    (∀ a : Int, ts + r.cooldown ≤ a → max 0 (ts + r.cooldown - a) = 0) := by
  refine ⟨?_, by omega, fun a b hab => by omega, fun a => by omega, fun a ha => by omega⟩
  intro now
  simp [getHealingHistory, sortByAttemptDesc, insertByAttemptDesc, hr]

/-- C9 witness: `memory_cleanup` recorded at time 1000 yields one entry,
with 300000 ms remaining at time 1000 and 0 remaining at time 400000. -/
theorem c9_healing_history_cooldown_witness :
    getHealingHistory autoRepairs [("memory_cleanup", (1000 : Int))] 1000 =
      [{ repair_name := "memory_cleanup", repair_description := "Memory Cleanup",
         last_attempt := 1000,
         cooldown_remaining := max 0 (1000 + memory_cleanup.cooldown - 1000) }] ∧
    max 0 ((1000 : Int) + memory_cleanup.cooldown - 400000) = 0 := by
  have h := c9_healing_history_cooldown autoRepairs "memory_cleanup"
    memory_cleanup 1000 rfl (by decide)
  exact ⟨h.1 1000, h.2.2.2.2 400000 (by decide)⟩

/-! ## Claim C6 -/

/-- C6: the two raw messages normalize to the identical pattern key
(digit runs and path tokens replaced), and recording both through
`analyzeError` on an empty tracker yields exactly one `ErrorPattern`
entry, with count 2. -/
theorem c6_error_pattern_merge :
    extractErrorPattern "failed at /tmp/abc123 for user 42" =
      extractErrorPattern "failed at /tmp/xyz789 for user 99" ∧
    (analyzeError (analyzeError [] "failed at /tmp/abc123 for user 42" 0)
      "failed at /tmp/xyz789 for user 99" 1).length = 1 ∧
    (mapGet (analyzeError (analyzeError [] "failed at /tmp/abc123 for user 42" 0)
        "failed at /tmp/xyz789 for user 99" 1)
      (extractErrorPattern "failed at /tmp/abc123 for user 42")).map
        (fun p => p.count) = some 2 :=
  ⟨rfl, rfl, rfl⟩

end SelfHealing
